import Mathlib

/-!
Shallow embedding of the core of `TortraxTR/Googles_Maps_Scraper`
(`business.py`, `google_scraper.py`, `google_scraper_AI.py`) together with
proofs about the embedded definitions.

Conventions:
* Python strings are modelled as `String` where only equality matters and as
  `List Char` where character-level processing (splitting, stripping) matters.
* Python `None` returns are modelled with `Option`.
* Python numbers parsed by `float(...)` are modelled exactly as scaled decimal
  integers (`PyDec`, meaning `mantissa / 10 ^ exp`); IEEE-754 rounding is out
  of model.
-/

/-! ## business.py -/

/-- Embeds the `Business` dataclass of `business.py` (same field order).
`email_list` starts as Python `None` in `_extract_business_data`, hence
`Option`.  Latitude/longitude come from `extract_coordinates_from_url` and may
be `None`. -/
structure Business where
  name : String
  address : String
  phone_number : String
  website : String
  email_list : Option (List String)
  query : String
  latitude : Option (Int × Nat)
  longitude : Option (Int × Nat)
deriving DecidableEq, Repr

/-- Embeds `Business.__hash__`: Python hashes the tuple
`(self.name, self.website, self.phone_number)`.  We model the hash injectively
by the tuple itself; collisions of Python's 64-bit hash are out of model. -/
def hash_fields (b : Business) : String × String × String :=
  (b.name, b.website, b.phone_number)

/-- Embeds the state of the `BusinessList` dataclass: the ordered
`business_list` and the `_seen_businesses` set (modelled as a list of keys,
used only through membership). -/
structure BusinessList where
  business_list : List Business
  seen_businesses : List (String × String × String)
deriving DecidableEq, Repr

/-- A fresh `BusinessList()` (both fields start empty). -/
def emptyBusinessList : BusinessList := ⟨[], []⟩

/-- Embeds `BusinessList.add_business`: computes `hash(business)`, and only if
it is not in `_seen_businesses` appends the business and records the hash.
The Python method has no `return` statement, so its value is always `None`,
modelled as `(none : Option Bool)`. -/
def add_business (st : BusinessList) (business : Business) :
    BusinessList × Option Bool :=
  let business_hash := hash_fields business
  if business_hash ∈ st.seen_businesses then
    (st, none)
  else
    ({ business_list := st.business_list ++ [business],
       seen_businesses := business_hash :: st.seen_businesses }, none)

/-- Inserting a whole sequence of records through `add_business`, left to
right. -/
def add_all (st : BusinessList) (bs : List Business) : BusinessList :=
  bs.foldl (fun s b => (add_business s b).1) st

/-- The `business_list` produced by inserting `bs` into a fresh collection. -/
def resultList (bs : List Business) : List Business :=
  (add_all emptyBusinessList bs).business_list

/-- Specification-level first-occurrence deduplication by identity key,
relative to a set of already-seen keys.  Used to characterise `add_all`. -/
def dedupFirst : List Business → List (String × String × String) → List Business
  | [], _ => []
  | b :: rest, seen =>
    if hash_fields b ∈ seen then dedupFirst rest seen
    else b :: dedupFirst rest (hash_fields b :: seen)

lemma add_all_business_list (bs : List Business) :
    ∀ st : BusinessList,
      (add_all st bs).business_list
        = st.business_list ++ dedupFirst bs st.seen_businesses := by
  induction bs with
  | nil => intro st; simp [add_all, dedupFirst]
  | cons b rest ih =>
    intro st
    by_cases h : hash_fields b ∈ st.seen_businesses
    · have : (add_business st b).1 = st := by
        simp [add_business, h]
      simp only [add_all, List.foldl_cons, this, dedupFirst, if_pos h]
      exact ih st
    · have hst : (add_business st b).1
          = { business_list := st.business_list ++ [b],
              seen_businesses := hash_fields b :: st.seen_businesses } := by
        simp [add_business, h]
      simp only [add_all, List.foldl_cons, hst, dedupFirst, if_neg h]
      have := ih { business_list := st.business_list ++ [b],
                   seen_businesses := hash_fields b :: st.seen_businesses }
      simp only [add_all] at this
      rw [this]
      simp

lemma dedupFirst_key_not_seen (bs : List Business) :
    ∀ (seen : List (String × String × String)) (b : Business),
      b ∈ dedupFirst bs seen → hash_fields b ∉ seen := by
  induction bs with
  | nil => intro seen b hb; simp [dedupFirst] at hb
  | cons a rest ih =>
    intro seen b hb
    by_cases h : hash_fields a ∈ seen
    · simp only [dedupFirst, if_pos h] at hb
      exact ih seen b hb
    · simp only [dedupFirst, if_neg h, List.mem_cons] at hb
      rcases hb with hb | hb
      · subst hb; exact h
      · have := ih (hash_fields a :: seen) b hb
        intro hmem
        exact this (List.mem_cons_of_mem _ hmem)

lemma dedupFirst_sublist (bs : List Business) :
    ∀ seen : List (String × String × String),
      List.Sublist (dedupFirst bs seen) bs := by
  induction bs with
  | nil => intro seen; simp [dedupFirst]
  | cons a rest ih =>
    intro seen
    by_cases h : hash_fields a ∈ seen
    · simp only [dedupFirst, if_pos h]
      exact (ih seen).cons a
    · simp only [dedupFirst, if_neg h]
      exact (ih (hash_fields a :: seen)).cons₂ a

lemma dedupFirst_keys_nodup (bs : List Business) :
    ∀ seen : List (String × String × String),
      ((dedupFirst bs seen).map hash_fields).Nodup := by
  induction bs with
  | nil => intro seen; simp [dedupFirst]
  | cons a rest ih =>
    intro seen
    by_cases h : hash_fields a ∈ seen
    · simp only [dedupFirst, if_pos h]
      exact ih seen
    · simp only [dedupFirst, if_neg h, List.map_cons, List.nodup_cons]
      refine ⟨?_, ih (hash_fields a :: seen)⟩
      intro hmem
      rcases List.mem_map.1 hmem with ⟨b, hb, hkey⟩
      have := dedupFirst_key_not_seen rest (hash_fields a :: seen) b hb
      exact this (by rw [hkey]; exact List.mem_cons_self _ _)

lemma dedupFirst_covers (bs : List Business) :
    ∀ (seen : List (String × String × String)) (k : String × String × String),
      k ∈ bs.map hash_fields →
      k ∈ seen ∨ k ∈ (dedupFirst bs seen).map hash_fields := by
  induction bs with
  | nil => intro seen k hk; simp at hk
  | cons a rest ih =>
    intro seen k hk
    simp only [List.map_cons, List.mem_cons] at hk
    by_cases h : hash_fields a ∈ seen
    · simp only [dedupFirst, if_pos h]
      rcases hk with hk | hk
      · exact Or.inl (hk ▸ h)
      · exact ih seen k hk
    · simp only [dedupFirst, if_neg h, List.map_cons]
      rcases hk with hk | hk
      · exact Or.inr (by simp [hk])
      · rcases ih (hash_fields a :: seen) k hk with hmem | hmem
        · rcases List.mem_cons.1 hmem with hka | hks
          · exact Or.inr (by simp [hka])
          · exact Or.inl hks
        · exact Or.inr (List.mem_cons_of_mem _ hmem)

lemma dedupFirst_first (bs : List Business) :
    ∀ (seen : List (String × String × String)) (b : Business),
      b ∈ dedupFirst bs seen →
      bs.find? (fun x => decide (hash_fields x = hash_fields b)) = some b := by
  induction bs with
  | nil => intro seen b hb; simp [dedupFirst] at hb
  | cons a rest ih =>
    intro seen b hb
    by_cases h : hash_fields a ∈ seen
    · simp only [dedupFirst, if_pos h] at hb
      have hne : hash_fields a ≠ hash_fields b := by
        intro he
        have := dedupFirst_key_not_seen rest seen b hb
        exact this (he ▸ h)
      rw [List.find?_cons_of_neg _ (by simpa using hne)]
      exact ih seen b hb
    · simp only [dedupFirst, if_neg h, List.mem_cons] at hb
      rcases hb with hb | hb
      · subst hb
        exact List.find?_cons_of_pos _ (by simp)
      · have hne : hash_fields a ≠ hash_fields b := by
          intro he
          have := dedupFirst_key_not_seen rest (hash_fields a :: seen) b hb
          exact this (he ▸ List.mem_cons_self _ _)
        rw [List.find?_cons_of_neg _ (by simpa using hne)]
        exact ih (hash_fields a :: seen) b hb

/-- C1: inserting any sequence of records through `BusinessList.add_business`
yields a `business_list` that (a) keeps first-insertion order (it is a
sublist of the input), (b) has pairwise-distinct identity triples
`(name, website, phone_number)`, (c) contains a record for an identity triple
iff some input record has that triple, and (d) keeps, for each kept record,
exactly the first input record carrying its triple — so a later record whose
triple matches an earlier one is never appended, even if other fields
differ. -/
theorem add_business_dedup (bs : List Business) :
    List.Sublist (resultList bs) bs ∧
    ((resultList bs).map hash_fields).Nodup ∧
    (∀ k, k ∈ bs.map hash_fields ↔ k ∈ (resultList bs).map hash_fields) ∧
    (∀ b, b ∈ resultList bs →
      bs.find? (fun x => decide (hash_fields x = hash_fields b)) = some b) := by
  have hr : resultList bs = dedupFirst bs [] := by
    unfold resultList
    rw [add_all_business_list bs emptyBusinessList]
    simp [emptyBusinessList]
  refine ⟨?_, ?_, ?_, ?_⟩
  · rw [hr]; exact dedupFirst_sublist bs []
  · rw [hr]; exact dedupFirst_keys_nodup bs []
  · intro k
    constructor
    · intro hk
      rw [hr]
      rcases dedupFirst_covers bs [] k hk with h | h
      · simp at h
      · exact h
    · intro hk
      rw [hr] at hk
      rcases List.mem_map.1 hk with ⟨b, hb, hkey⟩
      have : b ∈ bs := (dedupFirst_sublist bs []).subset hb
      exact hkey ▸ List.mem_map_of_mem _ this
  · intro b hb
    rw [hr] at hb
    exact dedupFirst_first bs [] b hb

/-- Concrete record used in witnesses: a business with some identity triple. -/
def bA : Business :=
  ⟨"Cafe A", "1 Main St", "555-0100", "https://a.example", none, "cafes",
    none, none⟩

/-- Same identity triple as `bA` but a different address (other fields
differ). -/
def bA2 : Business :=
  ⟨"Cafe A", "2 Side St", "555-0100", "https://a.example", none, "cafes",
    none, none⟩

/-- Witness for `add_business_dedup`: inserting `[bA, bA2]` (same identity
triple, different address) keeps only the first record, and that record is the
`find?`-first of its triple. -/
theorem add_business_dedup_witness :
    [bA, bA2].find? (fun x => decide (hash_fields x = hash_fields bA))
      = some bA :=
  (add_business_dedup [bA, bA2]).2.2.2 bA (by decide)

/-- Counterexample to C6 as stated: on a fresh collection the identity triple
of `bA` is not yet present, so the claimed contract requires `add_business` to
return `true`; the Python method has no `return` statement and yields `None`
(modelled `none`), not `true` — even though the record is appended. -/
theorem add_business_return_counterexample :
    hash_fields bA ∉ emptyBusinessList.seen_businesses ∧
    (add_business emptyBusinessList bA).2 ≠ some true ∧
    (add_business emptyBusinessList bA).1.business_list = [bA] := by
  decide

/-- C6 (amended): `add_business` appends the record and records its identity
triple iff the triple was not already seen, and leaves the collection
unchanged otherwise; but in both cases it returns Python `None` (no boolean
is ever returned). -/
theorem add_business_amended (st : BusinessList) (b : Business) :
    (hash_fields b ∈ st.seen_businesses → add_business st b = (st, none)) ∧
    (hash_fields b ∉ st.seen_businesses →
      add_business st b
        = ({ business_list := st.business_list ++ [b],
             seen_businesses := hash_fields b :: st.seen_businesses },
           none)) := by
  constructor
  · intro h; simp [add_business, h]
  · intro h; simp [add_business, h]

/-- Witness for `add_business_amended`: on the empty collection, `bA`'s triple
is unseen and the insert branch fires, returning `none`. -/
theorem add_business_amended_witness :
    add_business emptyBusinessList bA
      = ({ business_list := [bA],
           seen_businesses := [hash_fields bA] }, none) := by
  have h := (add_business_amended emptyBusinessList bA).2 (by decide)
  simpa [emptyBusinessList] using h

/-! ## run(): concurrency limit (google_scraper.py line 50, google_scraper_AI.py line 51) -/

/-- Embeds the value passed to the admission semaphore in both scrapers:
`asyncio.Semaphore(os.cpu_count()-2)`.  There is no flooring in the source. -/
def concurrency_limit (cpu_count : Int) : Int := cpu_count - 2

/-- Models the stdlib guard of `asyncio.Semaphore.__init__`: a negative
initial value raises `ValueError`. -/
def semaphore_init_accepts (value : Int) : Bool := 0 ≤ value

/-- C4 is violated by the code: the semaphore value is `os.cpu_count() - 2`
with no floor, so a 2-processing-unit host gets limit `0` (the semaphore
admits no job, both phases block forever) and a 1-processing-unit host gets
`-1` (rejected by `asyncio.Semaphore`); the limit is at least 1 only for
hosts with at least 3 processing units. -/
theorem concurrency_limit_not_floored :
    concurrency_limit 2 = 0 ∧
    ¬ 1 ≤ concurrency_limit 2 ∧
    concurrency_limit 1 = -1 ∧
    semaphore_init_accepts (concurrency_limit 1) = false ∧
    concurrency_limit 8 = 6 := by
  decide

/-! ## _scroll_and_collect_listings (google_scraper.py lines 162-194,
google_scraper_AI.py lines 159-192)

The loop is driven by the listing source's successive counts, modelled as a
stream `counts : Nat → Nat` where `counts i` is the value of
`listings_locator.count()` at the i-th check.  The `while True:` loop is
modelled with explicit fuel; `none` means the fuel ran out before a stop
condition fired (the real loop would still be running).  The returned value
models `len((await listings_locator.all())[:total_results])`, the number of
listing handles handed to the caller. -/

/-- One-to-one embedding of the `while True:` body: at check `i`, with
`previously_counted` from the previous iteration (0 initially), stop if
`current_count >= total_results`, or if
`current_count == previously_counted and current_count > 0`; otherwise set
`previously_counted = current_count`, scroll, and re-check.  Returns the
index of the check at which the loop breaks. -/
def scroll_loop (counts : Nat → Nat) (total_results : Nat) :
    Nat → Nat → Nat → Option Nat
  | 0, _, _ => none
  | fuel + 1, previously_counted, i =>
    let current_count := counts i
    if total_results ≤ current_count then some i
    else if current_count = previously_counted ∧ 0 < current_count then some i
    else scroll_loop counts total_results fuel current_count (i + 1)

/-- Embeds the whole of `_scroll_and_collect_listings` after the initial
wait: run the loop from `previously_counted = 0`, then return
`len(listings[:total_results])`, i.e. `min` of the final count and the
target. -/
def scroll_and_collect_listings (counts : Nat → Nat)
    (total_results fuel : Nat) : Option Nat :=
  (scroll_loop counts total_results fuel 0 0).map
    (fun i => min (counts i) total_results)

/-- The count stream `0, 3, 3, 3, ...` of the spec's stall example. -/
def c033 : Nat → Nat := fun i => if i = 0 then 0 else 3

/-- The count stream `2, 5, 7, 7, ...` of the spec's target example. -/
def c257 : Nat → Nat := fun i => if i = 0 then 2 else if i = 1 then 5 else 7

/-- A count stream `2, 7, 7, ...` that overshoots target 5 in one batch. -/
def c27 : Nat → Nat := fun i => if i = 0 then 2 else 7

lemma scroll_loop_mono (counts : Nat → Nat) (total_results : Nat) :
    ∀ (f g prev i : Nat) (j : Nat),
      scroll_loop counts total_results f prev i = some j → f ≤ g →
      scroll_loop counts total_results g prev i = some j := by
  intro f
  induction f with
  | zero => intro g prev i j h; simp [scroll_loop] at h
  | succ f ih =>
    intro g prev i j h hfg
    rcases g with _ | g
    · omega
    simp only [scroll_loop] at h ⊢
    by_cases h1 : total_results ≤ counts i
    · rw [if_pos h1] at h ⊢; exact h
    · rw [if_neg h1] at h ⊢
      by_cases h2 : counts i = prev ∧ 0 < counts i
      · rw [if_pos h2] at h ⊢; exact h
      · rw [if_neg h2] at h ⊢
        exact ih g (counts i) (i + 1) j h (by omega)

lemma scroll_loop_stop_pos (counts : Nat → Nat) (total_results : Nat)
    (htr : 1 ≤ total_results) :
    ∀ (f prev i j : Nat),
      scroll_loop counts total_results f prev i = some j → 0 < counts j := by
  intro f
  induction f with
  | zero => intro prev i j h; simp [scroll_loop] at h
  | succ f ih =>
    intro prev i j h
    simp only [scroll_loop] at h
    by_cases h1 : total_results ≤ counts i
    · rw [if_pos h1] at h
      cases h
      omega
    · rw [if_neg h1] at h
      by_cases h2 : counts i = prev ∧ 0 < counts i
      · rw [if_pos h2] at h
        cases h
        exact h2.2
      · rw [if_neg h2] at h
        exact ih (counts i) (i + 1) j h

/-- Stop conditions reachable at check `i`, given that the loop state is
consistent (`prev` is the previous check's count, or 0 at the start). -/
def stopP (counts : Nat → Nat) (total_results : Nat) (i : Nat) : Prop :=
  total_results ≤ counts i ∨
    (0 < i ∧ counts i = counts (i - 1) ∧ 0 < counts i)

lemma scroll_loop_reach (counts : Nat → Nat) (total_results : Nat) :
    ∀ (d i prev : Nat),
      ((i = 0 ∧ prev = 0) ∨ (0 < i ∧ prev = counts (i - 1))) →
      stopP counts total_results (i + d) →
      ∃ j, scroll_loop counts total_results (d + 1) prev i = some j := by
  intro d
  induction d with
  | zero =>
    intro i prev hprev hP
    simp only [Nat.add_zero] at hP
    simp only [scroll_loop]
    by_cases h1 : total_results ≤ counts i
    · rw [if_pos h1]; exact ⟨i, rfl⟩
    · rcases hP with hP | hP
      · exact absurd hP h1
      · rcases hprev with ⟨hi0, _⟩ | ⟨hipos, hprev⟩
        · omega
        · rw [if_neg h1, if_pos ⟨by rw [hprev]; exact hP.2.1, hP.2.2⟩]
          exact ⟨i, rfl⟩
  | succ d ih =>
    intro i prev hprev hP
    simp only [scroll_loop]
    by_cases h1 : total_results ≤ counts i
    · rw [if_pos h1]; exact ⟨i, rfl⟩
    · rw [if_neg h1]
      by_cases h2 : counts i = prev ∧ 0 < counts i
      · rw [if_pos h2]; exact ⟨i, rfl⟩
      · rw [if_neg h2]
        refine ih (i + 1) (counts i) (Or.inr ⟨by omega, by simp⟩) ?_
        have : i + 1 + d = i + (d + 1) := by omega
        rw [this]
        exact hP

/-- C2: in the pagination loop, (1) if a check sees a count equal to the
previous iteration's count and strictly positive, the loop stops at that
check; (2) for any positive target, a stop is only ever observed at a
strictly positive count — a count of 0 can never fire the stall branch;
(3) on the spec's `0,3,3` stream (with an out-of-reach target) the loop
stops exactly at the third check, for every fuel of at least 3, and hands
back 3 listing handles; (4) the loop terminates for every count stream that
eventually repeats a positive value at consecutive checks or eventually
reaches the target. -/
theorem scroll_loop_stall_detection (counts : Nat → Nat)
    (total_results : Nat) (htr : 1 ≤ total_results) :
    (∀ f prev i, counts i = prev → 0 < counts i →
      scroll_loop counts total_results (f + 1) prev i = some i) ∧
    (∀ f prev i j, scroll_loop counts total_results f prev i = some j →
      0 < counts j) ∧
    (∀ f, 3 ≤ f → scroll_loop c033 1000 f 0 0 = some 2) ∧
    scroll_and_collect_listings c033 1000 3 = some 3 ∧
    ((∃ i, total_results ≤ counts i) ∨
        (∃ i, counts (i + 1) = counts i ∧ 0 < counts (i + 1)) →
      ∃ n j, ∀ f, n ≤ f →
        scroll_loop counts total_results f 0 0 = some j) := by
  refine ⟨?_, ?_, ?_, ?_, ?_⟩
  · intro f prev i hstall hpos
    simp only [scroll_loop]
    by_cases h1 : total_results ≤ counts i
    · rw [if_pos h1]
    · rw [if_neg h1, if_pos ⟨hstall, hpos⟩]
  · intro f prev i j h
    exact scroll_loop_stop_pos counts total_results htr f prev i j h
  · intro f hf
    have h3 : scroll_loop c033 1000 3 0 0 = some 2 := by decide
    exact scroll_loop_mono c033 1000 3 f 0 0 2 h3 hf
  · decide
  · intro hh
    have hP : ∃ N, stopP counts total_results N := by
      rcases hh with ⟨i, hi⟩ | ⟨i, hi⟩
      · exact ⟨i, Or.inl hi⟩
      · exact ⟨i + 1, Or.inr ⟨by omega, by simpa using hi.1, hi.2⟩⟩
    rcases hP with ⟨N, hN⟩
    rcases scroll_loop_reach counts total_results N 0 0
        (Or.inl ⟨rfl, rfl⟩) (by simpa using hN) with ⟨j, hj⟩
    refine ⟨N + 1, j, ?_⟩
    intro f hf
    exact scroll_loop_mono counts total_results (N + 1) f 0 0 j hj hf

/-- Witness for `scroll_loop_stall_detection`: with target 1000 and the
`0,3,3` stream, the loop stops at a strictly positive count. -/
theorem scroll_loop_stall_detection_witness : 0 < c033 2 :=
  (scroll_loop_stall_detection c033 1000 (by decide)).2.1 3 0 0 2 (by decide)

/-- C3: (1) whenever a check observes at least `total_results` items, the
loop stops at that very check; (2) the number of listing handles returned is
never more than the target, any surplus loaded by the final batch being
truncated; (3) on the spec's example (`target = 5`, counts `2,5,7`) the loop
stops at the check observing 5 (the second check) and returns exactly 5
items, not 7; and a stream `2,7` that overshoots in one batch still returns
exactly 5. -/
theorem scroll_loop_target_truncation (counts : Nat → Nat)
    (total_results : Nat) (htr : 1 ≤ total_results) :
    (∀ f prev i, total_results ≤ counts i →
      scroll_loop counts total_results (f + 1) prev i = some i) ∧
    (∀ f r, scroll_and_collect_listings counts total_results f = some r →
      r ≤ total_results) ∧
    scroll_loop c257 5 5 0 0 = some 1 ∧
    scroll_and_collect_listings c257 5 5 = some 5 ∧
    scroll_and_collect_listings c27 5 5 = some 5 := by
  refine ⟨?_, ?_, by decide, by decide, by decide⟩
  · intro f prev i h
    simp only [scroll_loop]
    rw [if_pos h]
  · intro f r h
    simp only [scroll_and_collect_listings, Option.map_eq_some'] at h
    rcases h with ⟨j, _, hj⟩
    omega

/-- Witness for `scroll_loop_target_truncation`: at the second check of the
`2,5,7` stream the target 5 is met and the loop stops there. -/
theorem scroll_loop_target_truncation_witness :
    scroll_loop c257 5 (3 + 1) 2 1 = some 1 :=
  (scroll_loop_target_truncation c257 5 (by decide)).1 3 2 1 (by decide)

/-! ## _extract_email_from_website (google_scraper.py lines 196-257)

Character strings are `List Char` here.  The external fetch+regex pipeline
(`website_page.goto`; `website_page.content()`; `re.findall(email_regex, ...)`)
is abstracted per URL as `fetch : List Char → Option (List (List Char))`:
`none` means the navigation raised (the per-candidate `except` swallows it),
`some ms` means the page loaded and the email regex found the matches `ms`
in its content.  The function also records which candidate URLs were
navigated to, so that the order and extent of fallback probing is visible. -/

/-- Python whitespace test used by `str.strip()` (ASCII subset; Unicode
whitespace is out of model). -/
def isPySpace (c : Char) : Bool :=
  c == ' ' || c == '\t' || c == '\n' || c == '\r' || c == '\x0b' || c == '\x0c'

/-- Embeds Python `str.strip()`. -/
def pyStrip (s : List Char) : List Char :=
  ((s.dropWhile isPySpace).reverse.dropWhile isPySpace).reverse

/-- Embeds `contact_page_urls = [f"{website_url}/iletisim",
f"{website_url}/tr/iletisim", f"{website_url}/contact",
f"{website_url}/tr/contact"]` (google_scraper.py line 235). -/
def contact_page_urls (website_url : List Char) : List (List Char) :=
  [website_url ++ ("/iletisim").toList,
   website_url ++ ("/tr/iletisim").toList,
   website_url ++ ("/contact").toList,
   website_url ++ ("/tr/contact").toList]

/-- Embeds the `for contact_url in contact_page_urls:` loop
(google_scraper.py lines 236-244).  Per candidate: if the fetch raises, the
`except ... continue` moves on.  Otherwise the code runs
`business.email_list = business.email_list.append(re.findall(...))`:
when `email_list` is Python `None` this raises `AttributeError` (swallowed by
the same `except`, nothing assigned); when it is a list, `list.append`
returns `None`, so the field is assigned `None`.  The loop has no `break`:
every candidate is attempted.  Returns the final `email_list` value and the
list of candidates navigated to, in order. -/
def contact_fallback_loop (fetch : List Char → Option (List (List Char))) :
    Option (List (List Char)) → List (List Char) →
    Option (List (List Char)) × List (List Char)
  | email_list, [] => (email_list, [])
  | email_list, contact_url :: rest =>
    match fetch contact_url with
    | none =>
      let r := contact_fallback_loop fetch email_list rest
      (r.1, contact_url :: r.2)
    | some _ms =>
      match email_list with
      | none =>
        let r := contact_fallback_loop fetch none rest
        (r.1, contact_url :: r.2)
      | some _l =>
        let r := contact_fallback_loop fetch none rest
        (r.1, contact_url :: r.2)

/-- Embeds `_extract_email_from_website` of google_scraper.py: strip the
website URL and return unchanged if it is empty; `primary = none` models the
primary navigation raising (the outer `except` reports and the fallback loop
is never reached); `primary = some ms` models `re.findall` on the primary
page returning `ms` — when non-empty it is assigned to
`business.email_list`, otherwise the contact-page fallback loop runs.
`entry_email_list` is the record's `email_list` on entry.  Returns the
record's final `email_list` and the fallback candidates attempted. -/
def extract_email_from_website (website : List Char)
    (primary : Option (List (List Char)))
    (fetch : List Char → Option (List (List Char)))
    (entry_email_list : Option (List (List Char))) :
    Option (List (List Char)) × List (List Char) :=
  let website_url := pyStrip website
  if website_url = [] then (entry_email_list, [])
  else
    match primary with
    | none => (entry_email_list, [])
    | some email_list =>
      if email_list ≠ [] then (some email_list, [])
      else contact_fallback_loop fetch entry_email_list
        (contact_page_urls website_url)

lemma contact_fallback_loop_none (fetch : List Char → Option (List (List Char))) :
    ∀ urls : List (List Char),
      contact_fallback_loop fetch none urls = (none, urls) := by
  intro urls
  induction urls with
  | nil => simp [contact_fallback_loop]
  | cons u rest ih =>
    simp only [contact_fallback_loop]
    cases fetch u with
    | none => simp [ih]
    | some ms => simp [ih]

/-- Concrete fetch environment for the enrichment-fallback example: the first
fallback candidate of `https://ex.com` contains exactly the match `a@b.com`;
every other page loads but yields no matches. -/
def fetchC5 (u : List Char) : Option (List (List Char)) :=
  if u = ("https://ex.com/iletisim").toList then some [("a@b.com").toList]
  else some []

/-- Counterexample to C5 as stated: with zero primary matches and the first
fallback candidate containing the single match `a@b.com`, the code does not
return `["a@b.com"]` — the record's `email_list` ends as `None` (the
`email_list.append` result, `None`/`AttributeError`, is what gets stored or
swallowed) — and the second candidate IS attempted (the loop has no
short-circuit: all four candidates are navigated). -/
theorem email_fallback_counterexample :
    fetchC5 (("https://ex.com").toList ++ ("/iletisim").toList)
      = some [("a@b.com").toList] ∧
    (extract_email_from_website ("https://ex.com").toList (some []) fetchC5
        none).1 = none ∧
    (("https://ex.com").toList ++ ("/tr/iletisim").toList) ∈
      (extract_email_from_website ("https://ex.com").toList (some []) fetchC5
        none).2 := by
  decide

lemma extract_email_primary_empty (website : List Char)
    (fetch : List Char → Option (List (List Char)))
    (h : pyStrip website ≠ []) :
    extract_email_from_website website (some []) fetch none
      = (none, contact_page_urls (pyStrip website)) := by
  simp only [extract_email_from_website, if_neg h]
  simp [contact_fallback_loop_none fetch]

/-- C5 (amended): when the primary page yields zero matches (and the record's
`email_list` is `None`, as `_extract_business_data` always sets it), the
fallback candidates are attempted in their fixed order and a fetch failure
for one candidate is swallowed and the next candidate is tried — but no
candidate short-circuits the rest: every candidate is navigated regardless of
matches, and no candidate's matches ever become the result; the record's
`email_list` is `None` afterwards, whatever the fallback pages contain. -/
theorem email_fallback_no_shortcircuit (website : List Char)
    (fetch : List Char → Option (List (List Char)))
    (h : pyStrip website ≠ []) :
    extract_email_from_website website (some []) fetch none
      = (none, contact_page_urls (pyStrip website)) :=
  extract_email_primary_empty website fetch h

/-- Witness for `email_fallback_no_shortcircuit`, at the concrete
environment of the counterexample. -/
theorem email_fallback_no_shortcircuit_witness :
    extract_email_from_website ("https://ex.com").toList (some []) fetchC5 none
      = (none, contact_page_urls (pyStrip ("https://ex.com").toList)) :=
  email_fallback_no_shortcircuit ("https://ex.com").toList fetchC5 (by decide)

/-- C10: for a record entering `_extract_email_from_website` with
`email_list = None` (the value `_extract_business_data` always produces),
(1) if the primary page yields zero email-regex matches the record's
`email_list` is still `None` after the call, whatever the fallback contact
pages contain; and (2) only a non-empty primary-page match list ever makes
`email_list` non-`None`, in which case it becomes exactly those primary
matches. -/
theorem email_list_frame (website : List Char)
    (fetch : List Char → Option (List (List Char)))
    (p : Option (List (List Char))) :
    (extract_email_from_website website (some []) fetch none).1 = none ∧
    (∀ l, (extract_email_from_website website p fetch none).1 = some l →
      p = some l ∧ l ≠ []) := by
  constructor
  · by_cases h : pyStrip website = []
    · simp [extract_email_from_website, h]
    · rw [extract_email_primary_empty website fetch h]
  · intro l hl
    by_cases h : pyStrip website = []
    · simp [extract_email_from_website, h] at hl
    · simp only [extract_email_from_website, if_neg h] at hl
      cases p with
      | none => simp at hl
      | some pm =>
        by_cases hpm : pm = []
        · subst hpm
          simp [contact_fallback_loop_none fetch] at hl
        · simp only [ne_eq, hpm, not_false_iff, if_pos] at hl
          cases hl
          exact ⟨rfl, hpm⟩

/-- Witness for `email_list_frame`, at the counterexample's concrete
environment. -/
theorem email_list_frame_witness :
    (extract_email_from_website ("https://ex.com").toList (some []) fetchC5
      none).1 = none :=
  (email_list_frame ("https://ex.com").toList fetchC5 (some [])).1

/-! ## extract_coordinates_from_url (both scrapers, lines 9-20)

Python's `str.split` is re-implemented structurally on `List Char` so that
every definition evaluates by kernel reduction.  The numeric values produced
by `float(...)` are modelled exactly as scaled decimal integers
`PyDec = (mantissa, exp)` meaning `mantissa / 10 ^ exp`; the modelled
`float` grammar is the decimal-literal subset (optional sign, digits with an
optional point) — exponents, `inf`/`nan`, underscores and surrounding
whitespace are out of model, as is IEEE-754 rounding. -/

/-- Exact decimal value: `(mantissa, exp)` denotes `mantissa / 10 ^ exp`. -/
abbrev PyDec := Int × Nat

/-- The rational denoted by a `PyDec`. -/
def PyDec_toRat (d : PyDec) : ℚ := (d.1 : ℚ) / (10 : ℚ) ^ d.2

/-- Prepend a character to the first chunk of a split result. -/
def consHead (c : Char) : List (List Char) → List (List Char)
  | [] => [[c]]
  | h :: t => (c :: h) :: t

/-- Embeds Python `s.split('/@')`: split on non-overlapping occurrences of
the two-character separator `/@`, left to right. -/
def split2 : List Char → List (List Char)
  | [] => [[]]
  | [c] => [[c]]
  | c1 :: c2 :: rest =>
    if c1 = '/' ∧ c2 = '@' then [] :: split2 rest
    else consHead c1 (split2 (c2 :: rest))

/-- Embeds Python `s.split(sep)` for a one-character separator. -/
def split1 (sep : Char) : List Char → List (List Char)
  | [] => [[]]
  | c :: rest =>
    if c = sep then [] :: split1 sep rest else consHead c (split1 sep rest)

/-- Value of a digit string. -/
def digitsVal (cs : List Char) : Nat :=
  cs.foldl (fun a c => 10 * a + (c.toNat - 48)) 0

/-- Modelled from Python `float(...)` on an unsigned decimal literal:
`digits`, `digits.digits`, `digits.` or `.digits` parse; anything else
raises `ValueError` (`none`). -/
def parseUnsignedFloat (s : List Char) : Option PyDec :=
  match split1 '.' s with
  | [ip] =>
    if ip ≠ [] ∧ ip.all Char.isDigit then some ((digitsVal ip : Int), 0)
    else none
  | [ip, fp] =>
    if (ip ≠ [] ∨ fp ≠ []) ∧ ip.all Char.isDigit ∧ fp.all Char.isDigit then
      some ((digitsVal (ip ++ fp) : Int), fp.length)
    else none
  | _ => none

/-- Modelled from Python `float(...)`: an optional leading sign followed by
an unsigned decimal literal. -/
def pyFloat (s : List Char) : Option PyDec :=
  match s with
  | '-' :: rest => (parseUnsignedFloat rest).map (fun d => (-d.1, d.2))
  | '+' :: rest => parseUnsignedFloat rest
  | _ => parseUnsignedFloat s

/-- Embeds `coords_part = url.split('/@')[-1].split('/')[0]`: the text
before the first `/` of the chunk after the LAST `/@` (both `split` results
are non-empty, so `[-1]`/`[0]` never raise). -/
def coords_part (url : List Char) : List Char :=
  (split1 '/' ((split2 url).getLastD [])).headD []

/-- Embeds `extract_coordinates_from_url`: unpack
`coords_part.split(',')[:2]` into two strings (fewer than two pieces raises
`ValueError`, caught: `(None, None)`) and parse both with `float`
(`ValueError` caught likewise). -/
def extract_coordinates_from_url (url : List Char) :
    Option PyDec × Option PyDec :=
  match split1 ',' (coords_part url) with
  | lat_str :: lon_str :: _ =>
    match pyFloat lat_str, pyFloat lon_str with
    | some la, some lo => (some la, some lo)
    | _, _ => (none, none)
  | _ => (none, none)

/-- Counterexample to C9 as stated: this URL contains the well-formed
segment `/@34.05,-118.24,15z` with numeric latitude and longitude, yet the
code returns `(None, None)` because `url.split('/@')[-1]` keeps only the
text after the LAST `/@` (`junk`), which does not parse.  Without the
trailing `/@junk` the same URL parses as claimed. -/
theorem coordinates_counterexample :
    List.IsInfix (("/@34.05,-118.24,15z").toList)
      (("https://x/place/y/@34.05,-118.24,15z/@junk").toList) ∧
    extract_coordinates_from_url
      (("https://x/place/y/@34.05,-118.24,15z/@junk").toList)
      = (none, none) ∧
    extract_coordinates_from_url
      (("https://x/place/y/@34.05,-118.24,15z").toList)
      = (some (3405, 2), some (-11824, 2)) := by
  decide

/-- C9 (amended): `extract_coordinates_from_url` never raises and always
returns either two coordinates or `(None, None)`; the `/@` chunk it uses is
the LAST one in the URL: whenever the text before the first `/` of that last
chunk splits on `,` into at least two fields whose first two parse as
floats, the result is exactly those two numbers — in particular
`https://x/place/y/@34.05,-118.24,15z` gives `(34.05, -118.24)` — and
otherwise (segment absent with an unparsable prefix, or malformed) the
result is `(None, None)`, as on `https://x/place/y`. -/
theorem coordinates_parse (url lat_str lon_str : List Char)
    (rest : List (List Char)) (a b : PyDec) :
    (∀ u : List Char,
      extract_coordinates_from_url u = (none, none) ∨
      ∃ x y, extract_coordinates_from_url u = (some x, some y)) ∧
    (split1 ',' (coords_part url) = lat_str :: lon_str :: rest →
      pyFloat lat_str = some a → pyFloat lon_str = some b →
      extract_coordinates_from_url url = (some a, some b)) ∧
    extract_coordinates_from_url
      (("https://x/place/y/@34.05,-118.24,15z").toList)
      = (some (3405, 2), some (-11824, 2)) ∧
    PyDec_toRat (3405, 2) = (34.05 : ℚ) ∧
    PyDec_toRat (-11824, 2) = (-118.24 : ℚ) ∧
    extract_coordinates_from_url (("https://x/place/y").toList)
      = (none, none) := by
  refine ⟨?_, ?_, by decide, by norm_num [PyDec_toRat], by
    norm_num [PyDec_toRat], by decide⟩
  · intro u
    cases h1 : split1 ',' (coords_part u) with
    | nil => exact Or.inl (by simp [extract_coordinates_from_url, h1])
    | cons l1 t =>
      cases t with
      | nil => exact Or.inl (by simp [extract_coordinates_from_url, h1])
      | cons l2 r =>
        cases h2 : pyFloat l1 with
        | none =>
          exact Or.inl (by simp [extract_coordinates_from_url, h1, h2])
        | some x =>
          cases h3 : pyFloat l2 with
          | none =>
            exact Or.inl (by simp [extract_coordinates_from_url, h1, h2, h3])
          | some y =>
            exact Or.inr ⟨x, y,
              by simp [extract_coordinates_from_url, h1, h2, h3]⟩
  · intro h1 h2 h3
    simp [extract_coordinates_from_url, h1, h2, h3]

/-- Witness for `coordinates_parse`: its general parsing clause applied to
the spec's example URL. -/
theorem coordinates_parse_witness :
    extract_coordinates_from_url
      (("https://x/place/y/@34.05,-118.24,15z").toList)
      = (some (3405, 2), some (-11824, 2)) :=
  (coordinates_parse (("https://x/place/y/@34.05,-118.24,15z").toList)
    (("34.05").toList) (("-118.24").toList) [("15z").toList]
    (3405, 2) (-11824, 2)).2.1 (by decide) (by decide) (by decide)

/-! ## run(): two-phase structure and per-query failure isolation
(google_scraper.py lines 34-105, google_scraper_AI.py lines 35-107)

`run` is a single coroutine: it `await`s `asyncio.gather(*query_tasks)` —
which returns only once every query task has completed or failed — and only
then builds `email_tasks` from `self.business_list.business_list`.  This
sequential structure is embedded as an event trace.  Each query task's body
is wrapped in `try/except` inside `_process_query`, so a task never
propagates an exception to `gather`; a task's outcome is modelled as
`Except`: `.ok bs` for the businesses it scraped and added through
`_add_business_safely`, `.error e` for an exception caught at the job
boundary (reported as a status line, the page closed in `finally`).
`gather`'s interleaving of the per-task collector insertions is serialized
by `self.lock`; we model the admitted left-to-right order. -/

/-- Events of one `run`: a query task finishing (successfully or not), and
an enrichment task being created/started for the record at an index of the
collected list. -/
inductive RunEvent where
  | queryCompleted (query : String)
  | enrichmentStarted (idx : Nat)
deriving DecidableEq, Repr

/-- Whether an event belongs to the query phase. -/
def RunEvent.isQuery : RunEvent → Bool
  | .queryCompleted _ => true
  | .enrichmentStarted _ => false

/-- Embeds one `_process_query` outcome folded into the shared collector:
on success the scraped businesses are added under the lock; on an exception
the job boundary catches it and records the status message, leaving the
collector untouched. -/
def process_query (st : BusinessList) (outcome : Except String (List Business)) :
    BusinessList × Option String :=
  match outcome with
  | .ok bs => (add_all st bs, none)
  | .error e => (st, some e)

/-- Embeds `await asyncio.gather(*query_tasks)`: every query task runs to
its boundary; caught errors are collected, sibling results are all
retained. -/
def run_query_phase (st : BusinessList) :
    List (Except String (List Business)) → BusinessList × List String
  | [] => (st, [])
  | o :: rest =>
    match o with
    | .ok bs => run_query_phase (add_all st bs) rest
    | .error e =>
      let r := run_query_phase st rest
      (r.1, e :: r.2)

/-- The businesses a query outcome contributes (none on failure). -/
def ok_businesses : Except String (List Business) → List Business
  | .ok bs => bs
  | .error _ => []

/-- The error a query outcome records (none on success). -/
def err_of : Except String (List Business) → Option String
  | .ok _ => none
  | .error e => some e

/-- Embeds the two scheduling phases of `run`: the query phase runs first
(all query outcomes folded into the collector), and only afterwards one
enrichment task is created per record of the resulting
`business_list`.  Returns the post-query collector and the event trace. -/
def run_phases (search_queries : List String)
    (scrape : String → Except String (List Business)) :
    BusinessList × List RunEvent :=
  let r := run_query_phase emptyBusinessList (search_queries.map scrape)
  (r.1,
    search_queries.map RunEvent.queryCompleted ++
      (List.range r.1.business_list.length).map RunEvent.enrichmentStarted)

lemma add_all_append (st : BusinessList) (xs ys : List Business) :
    add_all (add_all st xs) ys = add_all st (xs ++ ys) := by
  simp [add_all, List.foldl_append]

lemma run_query_phase_spec (outcomes : List (Except String (List Business))) :
    ∀ st : BusinessList,
      (run_query_phase st outcomes).1
          = add_all st (outcomes.map ok_businesses).flatten ∧
      (run_query_phase st outcomes).2 = outcomes.filterMap err_of := by
  induction outcomes with
  | nil => intro st; simp [run_query_phase, add_all]
  | cons o rest ih =>
    intro st
    cases o with
    | ok bs =>
      simp only [run_query_phase, List.map_cons, List.flatten_cons,
        ok_businesses, List.filterMap_cons, err_of]
      rcases ih (add_all st bs) with ⟨h1, h2⟩
      exact ⟨by rw [h1, add_all_append], h2⟩
    | error e =>
      simp only [run_query_phase, List.map_cons, List.flatten_cons,
        ok_businesses, List.filterMap_cons, err_of, List.nil_append]
      rcases ih st with ⟨h1, h2⟩
      exact ⟨h1, by rw [h2]⟩

/-- A successfully scrapable record for query 1 of the partial-failure
example. -/
def b1 : Business :=
  ⟨"Shop 1", "Addr 1", "111", "https://one.example", none, "q1", none, none⟩

/-- A successfully scrapable record for query 3 of the partial-failure
example. -/
def b3 : Business :=
  ⟨"Shop 3", "Addr 3", "333", "https://three.example", none, "q3", none, none⟩

/-- C8: per-query failures are isolated at the job boundary.  In general,
the query phase never aborts: the collector ends up holding exactly the
successful outcomes' records (inserted through the dedup policy) and the
error list records exactly the caught per-job errors, in order.  In
particular, for a 3-query run whose second job raises, the collection holds
the records of queries 1 and 3 and exactly one error is recorded for
query 2. -/
theorem query_failure_isolation
    (outcomes : List (Except String (List Business))) (st : BusinessList) :
    ((run_query_phase st outcomes).1
        = add_all st (outcomes.map ok_businesses).flatten ∧
      (run_query_phase st outcomes).2 = outcomes.filterMap err_of) ∧
    (run_query_phase emptyBusinessList
        [Except.ok [b1], Except.error "query 2 raised",
          Except.ok [b3]]).1.business_list = [b1, b3] ∧
    (run_query_phase emptyBusinessList
        [Except.ok [b1], Except.error "query 2 raised", Except.ok [b3]]).2
      = ["query 2 raised"] := by
  exact ⟨run_query_phase_spec outcomes st, by decide, by decide⟩

/-- Witness for `query_failure_isolation`, applied at the concrete
3-query partial-failure run. -/
theorem query_failure_isolation_witness :
    (run_query_phase emptyBusinessList
        [Except.ok [b1], Except.error "query 2 raised", Except.ok [b3]]).2
      = [Except.ok [b1], Except.error "query 2 raised",
          Except.ok [b3]].filterMap err_of :=
  (query_failure_isolation
    [Except.ok [b1], Except.error "query 2 raised", Except.ok [b3]]
    emptyBusinessList).1.2

lemma run_phases_trace (search_queries : List String)
    (scrape : String → Except String (List Business)) :
    (run_phases search_queries scrape).2
      = search_queries.map RunEvent.queryCompleted ++
        (List.range
          (run_phases search_queries scrape).1.business_list.length).map
          RunEvent.enrichmentStarted := by
  simp [run_phases]

lemma get_append_phase_order (A B : List RunEvent)
    (hA : ∀ e ∈ A, e.isQuery = true) (hB : ∀ e ∈ B, e.isQuery = false) :
    ∀ (i j : Nat) (hi : i < (A ++ B).length) (hj : j < (A ++ B).length),
      ((A ++ B).get ⟨i, hi⟩).isQuery = true →
      ((A ++ B).get ⟨j, hj⟩).isQuery = false → i < j := by
  intro i j hi hj hqi hqj
  have hiA : i < A.length := by
    by_contra hge
    push_neg at hge
    have hmem : (A ++ B).get ⟨i, hi⟩ ∈ B := by
      rw [List.get_eq_getElem, List.getElem_append_right hge]
      exact List.getElem_mem _
    rw [hB _ hmem] at hqi
    simp at hqi
  have hjB : A.length ≤ j := by
    by_contra hlt
    push_neg at hlt
    have hmem : (A ++ B).get ⟨j, hj⟩ ∈ A := by
      rw [List.get_eq_getElem, List.getElem_append_left hlt]
      exact List.getElem_mem _
    rw [hA _ hmem] at hqj
    simp at hqj
  omega

/-- C7: in the event trace of a run, every query-task completion strictly
precedes every enrichment-task start (the phases never overlap), and the
enrichment-task population is exactly one task per record of the collection
as it stands after the whole query phase. -/
theorem phase_separation (search_queries : List String)
    (scrape : String → Except String (List Business)) :
    (∀ (i j : Nat) (hi : i < (run_phases search_queries scrape).2.length)
        (hj : j < (run_phases search_queries scrape).2.length),
      ((run_phases search_queries scrape).2.get ⟨i, hi⟩).isQuery = true →
      ((run_phases search_queries scrape).2.get ⟨j, hj⟩).isQuery = false →
      i < j) ∧
    ((run_phases search_queries scrape).2.filter
        (fun e => !e.isQuery)).length
      = (run_phases search_queries scrape).1.business_list.length := by
  have htr := run_phases_trace search_queries scrape
  constructor
  · exact get_append_phase_order
      (search_queries.map RunEvent.queryCompleted)
      ((List.range
        (run_phases search_queries scrape).1.business_list.length).map
        RunEvent.enrichmentStarted)
      (by
        intro e he
        rcases List.mem_map.1 he with ⟨q, _, hq⟩
        subst hq; rfl)
      (by
        intro e he
        rcases List.mem_map.1 he with ⟨k, _, hk⟩
        subst hk; rfl)
  · rw [htr]
    rw [List.filter_append]
    have h1 : (search_queries.map RunEvent.queryCompleted).filter
        (fun e => !e.isQuery) = [] := by
      induction search_queries with
      | nil => simp
      | cons q qs ih => simpa [RunEvent.isQuery] using ih
    have h2 : ((List.range
        (run_phases search_queries scrape).1.business_list.length).map
        RunEvent.enrichmentStarted).filter (fun e => !e.isQuery)
        = (List.range
            (run_phases search_queries scrape).1.business_list.length).map
            RunEvent.enrichmentStarted := by
      apply List.filter_eq_self.2
      intro e he
      rcases List.mem_map.1 he with ⟨k, _, hk⟩
      subst hk
      simp [RunEvent.isQuery]
    rw [h1, h2]
    simp

/-- Witness for `phase_separation`: in a concrete one-query run producing
one record, the number of enrichment tasks equals the collection size. -/
theorem phase_separation_witness :
    ((run_phases ["q1"] (fun _ => Except.ok [b1])).2.filter
        (fun e => !e.isQuery)).length
      = (run_phases ["q1"] (fun _ => Except.ok [b1])).1.business_list.length :=
  (phase_separation ["q1"] (fun _ => Except.ok [b1])).2
